import Mathlib

/-!
Shallow embedding of the ANS-104 bundle / data-item codec and the block
signing-input computation of the pyarweave library (ar/bundle.py,
ar/block.py, ar/utils/ans104_signers.py).  Byte strings are modelled as
`List Nat` with each element a byte value below 256.

The helpers `b64enc`/`b64dec` (URL-safe base64 without padding), the tag
record constructors `create_tag`/`normalize_tag`, the `deep_hash`
primitive and the fork-height constants live in files of the repository
that are not part of the provided sources; they are modelled from the
specification where marked.  External cryptographic primitives (SHA-256,
SHA-384, the signature schemes) are passed in as function parameters.
-/

/-- Little-endian fixed-width encoding of `n` on `k` bytes, as produced by
Python `int.to_bytes(k, 'little')` (which additionally raises on overflow;
the developments below only apply it to in-range values). -/
def natToBytesLE : Nat → Nat → List Nat
  | 0, _ => []
  | k + 1, n => n % 256 :: natToBytesLE k (n / 256)

/-- Little-endian byte-list decoding, as `int.from_bytes(bs, 'little')`. -/
def bytesToNatLE : List Nat → Nat
  | [] => 0
  | b :: r => b + 256 * bytesToNatLE r

/-- Byte values of a piece of ASCII text. -/
def strBytes (s : String) : List Nat := s.toList.map Char.toNat

/-- Decimal ASCII digits of a natural number, `str(n).encode()`. -/
def asciiNat (n : Nat) : List Nat := (Nat.toDigits 10 n).map Char.toNat

/-- Decimal ASCII of an integer, `str(n).encode()`. -/
def asciiInt (n : Int) : List Nat :=
  if n < 0 then 45 :: asciiNat n.natAbs else asciiNat n.natAbs

/-- Modelled from the spec: the URL-safe base64 alphabet used by the
`b64enc`/`b64dec` helpers of ar/utils (that file is not among the
provided sources). -/
def b64chars : List Nat :=
  strBytes ("ABCDEFGHIJKLMNOPQRSTUVWXYZabcdefghijklmnopqrstuvwxyz0123456789-_")

/-- The base64url character for a 6-bit value. -/
def sextetChar (n : Nat) : Nat := b64chars.getD n 0

/-- The 6-bit value of a base64url character. -/
def charSextet (c : Nat) : Nat := b64chars.indexOf c

/-- Modelled from the spec: URL-safe base64 without padding (`b64enc` of
ar/utils), on byte values. -/
def b64enc : List Nat → List Nat
  | [] => []
  | [a] => [sextetChar (a / 4), sextetChar (a % 4 * 16)]
  | [a, b] => [sextetChar (a / 4), sextetChar (a % 4 * 16 + b / 16),
      sextetChar (b % 16 * 4)]
  | a :: b :: c :: rest =>
      sextetChar (a / 4) :: sextetChar (a % 4 * 16 + b / 16) ::
      sextetChar (b % 16 * 4 + c / 64) :: sextetChar (c % 64) :: b64enc rest

/-- Modelled from the spec: URL-safe base64 decoding tolerating absent
padding (`b64dec` of ar/utils); the spec leaves the behaviour on invalid
input open, and the development only applies it to values produced by
`b64enc`. -/
def b64dec : List Nat → List Nat
  | [] => []
  | [_] => []
  | [w, x] => [charSextet w * 4 + charSextet x / 16]
  | [w, x, y] => [charSextet w * 4 + charSextet x / 16,
      charSextet x % 16 * 16 + charSextet y / 4]
  | w :: x :: y :: z :: rest =>
      (charSextet w * 4 + charSextet x / 16) ::
      (charSextet x % 16 * 16 + charSextet y / 4) ::
      (charSextet y % 4 * 64 + charSextet z) :: b64dec rest

/-- A registered ANS-104 signer variant (ar/utils/ans104_signers.py); only
the numeric type tag and the fixed owner/signature lengths drive the
binary layout. -/
structure Signer where
  type : Nat
  owner_length : Nat
  signature_length : Nat
deriving DecidableEq

def Arweave : Signer := ⟨1, 512, 512⟩

def Ed25519 : Signer := ⟨2, 32, 64⟩

def Ethereum : Signer := ⟨3, 65, 65⟩

def Solana : Signer := ⟨4, 32, 64⟩

def DEFAULT_SIGNER : Signer := Arweave

/-- The `BY_TYPE` registry: only types 1 to 4 are registered. -/
def SIGNERS_BY_TYPE (t : Nat) : Option Signer :=
  if t = 1 then some Arweave
  else if t = 2 then some Ed25519
  else if t = 3 then some Ethereum
  else if t = 4 then some Solana
  else none

/-- Modelled from the spec: a tag is a record of a byte-string `name` and
a byte-string `value` (`create_tag`/`normalize_tag` of ar/utils, not among
the provided sources, build and normalize these records and are the
identity on byte-string tags). -/
structure Tag where
  name : List Nat
  value : List Nat
deriving DecidableEq

/-- The zigzag transform of `avrolongenc`: `zigzag = num << 1`, negated
bitwise when negative. -/
def zigzagEnc (num : Int) : Nat :=
  if num < 0 then (-(num * 2) - 1).toNat else (num * 2).toNat

/-- The varint loop of `avrolongenc`: 7 bits per byte, least significant
first, high bit set on continuation.  The fuel argument only makes the
recursion structural; `z` itself always suffices since `z / 128` strictly
decreases, and the fuel-zero fallback is only reached at `z = 0` where it
emits the same single byte as the loop. -/
def varintEncAux : Nat → Nat → List Nat
  | 0, z => [z % 128]
  | fuel + 1, z =>
    if z / 128 = 0 then [z % 128]
    else (z % 128 + 128) :: varintEncAux fuel (z / 128)

def varintEnc (z : Nat) : List Nat := varintEncAux z z

def avrolongenc (num : Int) : List Nat := varintEnc (zigzagEnc num)

/-- The varint read loop of `avrolongdec` on a byte stream; `none` models
the IndexError Python raises on a short read.  (On byte values below 256
the stop test agrees with `byte & 0x80 == 0`.) -/
def varintDec : List Nat → Option (Nat × List Nat)
  | [] => none
  | byte :: rest =>
    if byte % 256 < 128 then some (byte % 128, rest)
    else match varintDec rest with
      | none => none
      | some (z, r) => some (byte % 128 + 128 * z, r)

/-- Zigzag decoding as in `avrolongdec`: an odd zigzag carries the sign
bit in the ones place (`~zigzag` then arithmetic shift; both divisions are
exact so the rounding convention is immaterial). -/
def zigzagDec (z : Nat) : Int :=
  if z % 2 = 1 then -(((z : Int) + 1) / 2) else (z : Int) / 2

def avrolongdec (s : List Nat) : Option (Int × List Nat) :=
  match varintDec s with
  | none => none
  | some (z, r) => some (zigzagDec z, r)

/-- `avrobytesenc`: a zigzag-varint length prefix followed by the data. -/
def avrobytesenc (data : List Nat) : List Nat :=
  avrolongenc data.length ++ data

/-- `avrobytesdec`; `none` models the failed `assert count >= 0` /
`assert len(result) == count` and short reads. -/
def avrobytesdec (s : List Nat) : Option (List Nat × List Nat) :=
  match avrolongdec s with
  | none => none
  | some (count, r) =>
    if count < 0 then none
    else if r.length < count.toNat then none
    else some (r.take count.toNat, r.drop count.toNat)

/-- The inner `for` loop of `tagsfromstream`: read `k` name/value pairs. -/
def readTagPairs : Nat → List Nat → Option (List Tag × List Nat)
  | 0, s => some ([], s)
  | k + 1, s =>
    match avrobytesdec s with
    | none => none
    | some (name, s1) =>
      match avrobytesdec s1 with
      | none => none
      | some (value, s2) =>
        match readTagPairs k s2 with
        | none => none
        | some (tags, s3) => some (⟨name, value⟩ :: tags, s3)

/-- The block `while` loop of `tagsfromstream`.  The fuel only bounds the
number of loop iterations; each iteration consumes at least one byte, so
`length + 1` iterations can never be exhausted on inputs where the Python
loop terminates normally. -/
def tagsBlocks : Nat → List Nat → Option (List Tag × List Nat)
  | 0, _ => none
  | fuel + 1, s =>
    match avrolongdec s with
    | none => none
    | some (n, r) =>
      if n = 0 then some ([], r)
      else
        match (if n < 0 then
                 match avrolongdec r with
                 | none => none
                 | some (_, r2) => some ((-n).toNat, r2)
               else some (n.toNat, r)) with
        | none => none
        | some (cnt, r2) =>
          match readTagPairs cnt r2 with
          | none => none
          | some (tags1, r3) =>
            match tagsBlocks fuel r3 with
            | none => none
            | some (tags2, r4) => some (tags1 ++ tags2, r4)

/-- `ANS104DataItemHeader.tagsfromstream` on a byte stream, returning the
decoded tags and the unconsumed remainder of the stream. -/
def tagsfromstream (s : List Nat) : Option (List Tag × List Nat) :=
  tagsBlocks (s.length + 1) s

/-- The per-pair bytes emitted by `tagstobytes`. -/
def encodeTagPairs (tags : List Tag) : List Nat :=
  (tags.map (fun t => avrobytesenc t.name ++ avrobytesenc t.value)).flatten

/-- `ANS104DataItemHeader.tagstobytes`: one block holding all tags,
followed by a zero terminator byte when the list is non-empty. -/
def tagstobytes (tags : List Tag) : List Nat :=
  avrolongenc tags.length ++ encodeTagPairs tags ++
  (if tags.length ≠ 0 then [0] else [])

theorem natToBytesLE_length (k n : Nat) : (natToBytesLE k n).length = k := by
  induction k generalizing n with
  | zero => rfl
  | succ k ih => simp [natToBytesLE, ih]

theorem bytesToNatLE_natToBytesLE (k n : Nat) (h : n < 256 ^ k) :
    bytesToNatLE (natToBytesLE k n) = n := by
  induction k generalizing n with
  | zero => simp [natToBytesLE, bytesToNatLE]; omega
  | succ k ih =>
    have hlt : n / 256 < 256 ^ k := by
      rw [Nat.div_lt_iff_lt_mul (by omega)]
      calc n < 256 ^ (k + 1) := h
        _ = 256 ^ k * 256 := by ring
    simp [natToBytesLE, bytesToNatLE, ih _ hlt]
    omega

theorem charSextet_sextetChar : ∀ n < 64, charSextet (sextetChar n) = n := by
  decide

theorem b64dec_b64enc : ∀ (bs : List Nat), (∀ x ∈ bs, x < 256) →
    b64dec (b64enc bs) = bs
  | [], _ => rfl
  | [a], h => by
    have ha : a < 256 := h a (by simp)
    simp only [b64enc, b64dec]
    rw [charSextet_sextetChar _ (by omega), charSextet_sextetChar _ (by omega)]
    simp
    omega
  | [a, b], h => by
    have ha : a < 256 := h a (by simp)
    have hb : b < 256 := h b (by simp)
    simp only [b64enc, b64dec]
    rw [charSextet_sextetChar _ (by omega), charSextet_sextetChar _ (by omega),
      charSextet_sextetChar _ (by omega)]
    simp
    constructor <;> omega
  | a :: b :: c :: rest, h => by
    have ha : a < 256 := h a (by simp)
    have hb : b < 256 := h b (by simp)
    have hc : c < 256 := h c (by simp)
    have ih := b64dec_b64enc rest (fun x hx => h x (by simp [hx]))
    simp only [b64enc, b64dec]
    rw [charSextet_sextetChar _ (by omega), charSextet_sextetChar _ (by omega),
      charSextet_sextetChar _ (by omega), charSextet_sextetChar _ (by omega), ih]
    refine congrArg₂ _ (by omega) (congrArg₂ _ (by omega) (congrArg₂ _ (by omega) rfl))

theorem varintDec_varintEncAux (fuel : Nat) : ∀ (z : Nat) (r : List Nat), z ≤ fuel →
    varintDec (varintEncAux fuel z ++ r) = some (z, r) := by
  induction fuel with
  | zero =>
    intro z r hz
    have : z = 0 := by omega
    subst this
    simp [varintEncAux, varintDec]
  | succ fuel ih =>
    intro z r hz
    rw [varintEncAux]
    split
    next h =>
      simp only [List.cons_append, List.nil_append, varintDec]
      rw [if_pos (by omega)]
      simp only [Option.some.injEq, Prod.mk.injEq]
      exact ⟨by omega, by trivial⟩
    next h =>
      simp only [List.cons_append, varintDec]
      rw [if_neg (by omega)]
      have hrec : z / 128 ≤ fuel := by
        have := Nat.div_lt_self (n := z) (by omega) (by omega : 1 < 128)
        omega
      rw [show (varintEncAux fuel (z / 128)).append r
          = varintEncAux fuel (z / 128) ++ r from rfl]
      rw [ih (z / 128) r hrec]
      simp only [Option.some.injEq, Prod.mk.injEq]
      exact ⟨by omega, by trivial⟩

theorem varintDec_varintEnc (z : Nat) (r : List Nat) :
    varintDec (varintEnc z ++ r) = some (z, r) :=
  varintDec_varintEncAux z z r (Nat.le_refl z)

theorem zigzagDec_zigzagEnc (n : Int) : zigzagDec (zigzagEnc n) = n := by
  unfold zigzagEnc zigzagDec
  by_cases hn : n < 0
  · rw [if_pos hn]
    have h1 : ((-(n * 2) - 1).toNat : Int) = -(n * 2) - 1 := by omega
    rw [if_pos (by omega), h1]
    omega
  · rw [if_neg hn]
    have h1 : ((n * 2).toNat : Int) = n * 2 := by omega
    rw [if_neg (by omega), h1]
    omega

theorem avrolongdec_avrolongenc (n : Int) (r : List Nat) :
    avrolongdec (avrolongenc n ++ r) = some (n, r) := by
  simp [avrolongdec, avrolongenc, varintDec_varintEnc, zigzagDec_zigzagEnc]

theorem avrobytesdec_avrobytesenc (b r : List Nat) :
    avrobytesdec (avrobytesenc b ++ r) = some (b, r) := by
  unfold avrobytesenc avrobytesdec
  rw [List.append_assoc, avrolongdec_avrolongenc]
  simp

theorem readTagPairs_encodeTagPairs (tags : List Tag) (r : List Nat) :
    readTagPairs tags.length (encodeTagPairs tags ++ r) = some (tags, r) := by
  induction tags generalizing r with
  | nil => simp [encodeTagPairs, readTagPairs]
  | cons t ts ih =>
    have hsplit : encodeTagPairs (t :: ts) ++ r
        = avrobytesenc t.name ++ (avrobytesenc t.value ++ (encodeTagPairs ts ++ r)) := by
      simp [encodeTagPairs]
    rw [show (t :: ts).length = ts.length + 1 from rfl, hsplit]
    simp only [readTagPairs, avrobytesdec_avrobytesenc, ih]

theorem tagsBlocks_tagstobytes (f : Nat) (tags : List Tag) (r : List Nat) :
    tagsBlocks (f + 2) (tagstobytes tags ++ r) = some (tags, r) := by
  cases tags with
  | nil =>
    have h0 : tagstobytes [] = avrolongenc ((0 : Nat) : Int) := by
      simp [tagstobytes, encodeTagPairs]
    rw [h0]
    simp only [tagsBlocks, avrolongdec_avrolongenc]
    norm_num
  | cons t ts =>
    have hsplit : tagstobytes (t :: ts) ++ r
        = avrolongenc (((t :: ts).length : Nat) : Int)
          ++ (encodeTagPairs (t :: ts) ++ (avrolongenc ((0 : Nat) : Int) ++ r)) := by
      rw [tagstobytes, if_pos (by simp : (t :: ts).length ≠ 0)]
      rw [show avrolongenc ((0 : Nat) : Int) = [0] from rfl]
      simp [List.append_assoc]
    rw [hsplit]
    simp only [tagsBlocks, avrolongdec_avrolongenc]
    rw [if_neg (show ¬(((t :: ts).length : Nat) : Int) = 0 by
        simp only [List.length_cons]; omega),
      if_neg (show ¬(((t :: ts).length : Nat) : Int) < 0 by
        simp only [List.length_cons]; omega)]
    simp only [Int.toNat_natCast, readTagPairs_encodeTagPairs]
    simp only [avrolongdec_avrolongenc]
    norm_num

theorem tagstobytes_length_pos (tags : List Tag) : 0 < (tagstobytes tags).length := by
  have hne : avrolongenc ((tags.length : Nat) : Int) ≠ [] := by
    unfold avrolongenc varintEnc
    cases h : zigzagEnc ((tags.length : Nat) : Int) with
    | zero => simp [varintEncAux]
    | succ m =>
      rw [varintEncAux]
      split <;> simp
  simp only [tagstobytes, List.length_append]
  cases h : avrolongenc ((tags.length : Nat) : Int) with
  | nil => exact absurd h hne
  | cons a l => simp

theorem tagsfromstream_tagstobytes (tags : List Tag) (r : List Nat) :
    tagsfromstream (tagstobytes tags ++ r) = some (tags, r) := by
  unfold tagsfromstream
  have h1 : 0 < (tagstobytes tags).length := tagstobytes_length_pos tags
  have h2 : (tagstobytes tags ++ r).length + 1
      = ((tagstobytes tags ++ r).length - 1) + 2 := by
    simp only [List.length_append]
    omega
  rw [h2]
  exact tagsBlocks_tagstobytes _ tags r

theorem tagsfromstream_nil : tagsfromstream [] = none := rfl

/-- The state of an `ANS104DataItemHeader` after `__init__`: the raw tag
bytes, raw owner and signature bytes, the optional base64url-encoded
target and anchor strings, and the signer. -/
structure ANS104DataItemHeader where
  raw_tags : List Nat
  raw_owner : List Nat
  raw_signature : List Nat
  target : Option (List Nat)
  anchor : Option (List Nat)
  signer : Signer
deriving DecidableEq

/-- A Python value passed for an optional constructor argument: `None`, a
byte string, or a base64url text string. -/
inductive PyVal
  | none
  | bytes (b : List Nat)
  | str (s : List Nat)
deriving DecidableEq

/-- Python truthiness of such a value: `None` and empty strings are
falsy. -/
def PyVal.truthy : PyVal → Bool
  | .none => false
  | .bytes b => !b.isEmpty
  | .str s => !s.isEmpty

/-- Modelled from the spec: `b64enc_if_not_str` of ar/utils (not among the
provided sources): byte strings are base64url-encoded, text strings pass
through.  (`.none` never reaches it at the call sites below, which guard
with truthiness first.) -/
def b64enc_if_not_str : PyVal → List Nat
  | .bytes b => b64enc b
  | .str s => s
  | .none => []

/-- The `tags` argument of `ANS104DataItemHeader.__init__`: either
already-encoded raw bytes or a list of tag records. -/
inductive TagsArg
  | raw (b : List Nat)
  | list (ts : List Tag)

/-- `extra_tags_data`: the residue of `raw_tags` after decoding.  (Python
raises when the decode fails; at the only call site reached here the
buffer is the single byte `0`, which decodes with empty residue.) -/
def extraTagsDataOf (raw : List Nat) : List Nat :=
  match tagsfromstream raw with
  | some (_, r) => r
  | none => []

/-- `ANS104DataItemHeader.__init__`.  `randomBytes` stands for the
`get_random_bytes(32)` draw taken exactly when the anchor argument is
`None`.  A tag-list argument first sets `raw_tags = b'\x00'` and then runs
the `tags` setter, which appends the (empty) residue of that byte. -/
def headerInit (tags : TagsArg) (owner : List Nat) (target : PyVal) (anchor : PyVal)
    (randomBytes : List Nat) (signature : List Nat) (signer : Signer) :
    ANS104DataItemHeader :=
  let raw_tags := match tags with
    | .raw b => b
    | .list ts => tagstobytes ts ++ extraTagsDataOf [0]
  let anchor1 := if anchor = PyVal.none then PyVal.bytes randomBytes else anchor
  { raw_tags := raw_tags
    raw_owner := owner
    raw_signature := signature
    target := if target.truthy then some (b64enc_if_not_str target) else Option.none
    anchor := if anchor1.truthy then some (b64enc_if_not_str anchor1) else Option.none
    signer := signer }

/-- The `raw_target` property: decode of the stored string, `b''` when
absent. -/
def ANS104DataItemHeader.raw_target (h : ANS104DataItemHeader) : List Nat :=
  match h.target with
  | some t => b64dec t
  | none => []

/-- The `raw_anchor` property: decode of the stored string, `b''` when
absent. -/
def ANS104DataItemHeader.raw_anchor (h : ANS104DataItemHeader) : List Nat :=
  match h.anchor with
  | some a => b64dec a
  | none => []

/-- `ANS104DataItemHeader.get_len_bytes`. -/
def ANS104DataItemHeader.get_len_bytes (h : ANS104DataItemHeader) : Nat :=
  2 + h.signer.signature_length + h.signer.owner_length + 2
  + (if h.target.isSome then 32 else 0)
  + (if h.anchor.isSome then 32 else 0)
  + 16 + h.raw_tags.length

/-- A `struct.pack` `s`-field: the data zero-padded or truncated to the
declared width. -/
def packStr (b : List Nat) (n : Nat) : List Nat :=
  b.take n ++ List.replicate (n - b.length) 0

/-- `ANS104DataItemHeader.tobytes`; `none` models the exception raised by
the `len(self.tags)` field when `raw_tags` does not decode.  (The `<H`
field assumes the registered signer types, all below 2^16.) -/
def ANS104DataItemHeader.tobytes (h : ANS104DataItemHeader) : Option (List Nat) :=
  match tagsfromstream h.raw_tags with
  | none => none
  | some (tags, _) =>
    some (natToBytesLE 2 h.signer.type
      ++ packStr h.raw_signature h.signer.signature_length
      ++ packStr h.raw_owner h.signer.owner_length
      ++ (match h.target with
          | some t => 1 :: packStr (b64dec t) 32
          | none => [0])
      ++ (match h.anchor with
          | some a => 1 :: packStr (b64dec a) 32
          | none => [0])
      ++ natToBytesLE 8 tags.length
      ++ natToBytesLE 8 h.raw_tags.length
      ++ h.raw_tags)

/-- The distinct exceptions `ANS104DataItemHeader.fromstream` can raise. -/
inductive HeaderErr
  | shortRead
  | unknownSignatureType
  | unknownTargetFlag
  | unknownAnchorFlag
  | tagsDecodeError
  | incorrectTagsLength
  | assertFailed
deriving DecidableEq

/-- A strict fixed-width stream read.  (A Python `BytesIO.read` returns
short data without error, but every fixed-width field read short later
fails the trailing offset assertion or the `struct.unpack`, so the strict
model agrees with the source on success and failure of the whole parse.) -/
def readN (n : Nat) (s : List Nat) : Option (List Nat × List Nat) :=
  if n ≤ s.length then some (s.take n, s.drop n) else none

/-- `ANS104DataItemHeader.fromstream`, returning the parsed header and the
unconsumed remainder of the stream. -/
def ANS104DataItemHeader.fromstream (s : List Nat) :
    Except HeaderErr (ANS104DataItemHeader × List Nat) :=
  match readN 2 s with
  | Option.none => .error .shortRead
  | some (tb, s1) =>
    match SIGNERS_BY_TYPE (bytesToNatLE tb) with
    | Option.none => .error .unknownSignatureType
    | some signer =>
      match readN (signer.signature_length + signer.owner_length) s1 with
      | Option.none => .error .shortRead
      | some (so, s2) =>
        let raw_signature := so.take signer.signature_length
        let raw_owner := so.drop signer.signature_length
        match s2 with
        | [] => .error .shortRead
        | tflag :: s3 =>
          if tflag ≠ 0 ∧ tflag ≠ 1 then .error .unknownTargetFlag
          else
            match (if tflag ≠ 0 then
                     match readN 32 s3 with
                     | Option.none => Option.none
                     | some (t, s4) => some (some t, s4)
                   else some (Option.none, s3)) with
            | Option.none => .error .shortRead
            | some (target, s4) =>
              match s4 with
              | [] => .error .shortRead
              | aflag :: s5 =>
                if aflag ≠ 0 ∧ aflag ≠ 1 then .error .unknownAnchorFlag
                else
                  match (if aflag ≠ 0 then readN 32 s5
                         else some (([] : List Nat), s5)) with
                  | Option.none => .error .shortRead
                  | some (anchor, s6) =>
                    match readN 16 s6 with
                    | Option.none => .error .shortRead
                    | some (cnts, s7) =>
                      let tags_len := bytesToNatLE (cnts.take 8)
                      let raw_tags_len := bytesToNatLE (cnts.drop 8)
                      match (if raw_tags_len > 0 then
                               match readN raw_tags_len s7 with
                               | Option.none => Except.error HeaderErr.shortRead
                               | some (raw_tags, s8) =>
                                 match tagsfromstream raw_tags with
                                 | Option.none => Except.error HeaderErr.tagsDecodeError
                                 | some (tags, residual) =>
                                   if residual = [] ∧ tags.length ≠ tags_len then
                                     Except.error HeaderErr.incorrectTagsLength
                                   else Except.ok (raw_tags, s8)
                             else Except.ok (([] : List Nat), s7)) with
                      | Except.error e => Except.error e
                      | Except.ok (raw_tags, s8) =>
                        let result := headerInit (TagsArg.raw raw_tags) raw_owner
                          (match target with
                           | some t => PyVal.bytes t
                           | Option.none => PyVal.none)
                          (PyVal.bytes anchor) [] raw_signature signer
                        let offset := 2 + signer.signature_length + signer.owner_length
                          + 1 + (if tflag ≠ 0 then 32 else 0)
                          + 1 + (if aflag ≠ 0 then 32 else 0) + 16 + raw_tags_len
                        if offset - raw_tags_len
                            ≠ result.get_len_bytes - result.raw_tags.length then
                          .error .assertFailed
                        else if offset ≠ result.get_len_bytes then .error .assertFailed
                        else .ok (result, s8)

/-- A `DataItem`: header, payload bytes and format version. -/
structure DataItem where
  header : ANS104DataItemHeader
  data : List Nat
  version : Nat
deriving DecidableEq

/-- `DataItem.get_len_bytes`. -/
def DataItem.get_len_bytes (d : DataItem) : Nat :=
  d.header.get_len_bytes + d.data.length

/-- `DataItem.tobytes`. -/
def DataItem.tobytes (d : DataItem) : Option (List Nat) :=
  match d.header.tobytes with
  | some hb => some (hb ++ d.data)
  | none => none

/-- `DataItem.fromstream` with `length=None`: parse the header, then the
payload is the whole remaining stream. -/
def DataItem.fromstream (s : List Nat) : Except HeaderErr DataItem :=
  match ANS104DataItemHeader.fromstream s with
  | .error e => .error e
  | .ok (h, rest) => .ok ⟨h, rest, 2⟩

/-- `DataItem.frombytes` with the default `length=None`. -/
def DataItem.frombytes (s : List Nat) : Except HeaderErr DataItem :=
  DataItem.fromstream s

/-- `DataItem.verify` short of the final signature check: the
cryptographic `signer.verify` outcome is the external primitive, passed in
as `cryptoOk`.  `.error ()` marks a raised exception: undecodable tags, or
the NameError on the out-of-loop `tag` lookup when the tag list is empty.
The two size checks sit outside the per-tag loop in the source and so see
only the loop variable left from the last iteration. -/
def DataItem.verify (d : DataItem) (cryptoOk : Bool) : Except Unit Bool :=
  match tagsfromstream d.header.raw_tags with
  | none => .error ()
  | some (tags, _) =>
    if tags.length > 128 then .ok false
    else if d.header.raw_anchor.length > 32 then .ok false
    else if tags.any (fun t => t.name.isEmpty || t.value.isEmpty) then .ok false
    else
      match tags.getLast? with
      | none => .error ()
      | some tag =>
        if tag.name.length > 1024 then .ok false
        else if tag.value.length > 3072 then .ok false
        else .ok cryptoOk

/-- `ANS104BundleHeader` state: the `(length, id)` pairs, ids as base64url
strings. -/
structure ANS104BundleHeader where
  length_id_pairs : List (Nat × List Nat)

/-- `ANS104BundleHeader.get_len_bytes`. -/
def ANS104BundleHeader.get_len_bytes (h : ANS104BundleHeader) : Nat :=
  32 + h.length_id_pairs.length * 64

/-- `ANS104BundleHeader.tobytes`: 32-byte little-endian count, then a
32-byte little-endian length and the 32 decoded id bytes per pair. -/
def ANS104BundleHeader.tobytes (h : ANS104BundleHeader) : List Nat :=
  natToBytesLE 32 h.length_id_pairs.length ++
  (h.length_id_pairs.map (fun p => natToBytesLE 32 p.1 ++ b64dec p.2)).flatten

/-- `raw_id = SHA256(raw_signature)`: the hash is the external
pycryptodome primitive, passed in as `sha256`. -/
def headerRawId (sha256 : List Nat → List Nat) (h : ANS104DataItemHeader) :
    List Nat :=
  sha256 h.raw_signature

/-- The `id` property: base64url of `raw_id`. -/
def headerId (sha256 : List Nat → List Nat) (h : ANS104DataItemHeader) :
    List Nat :=
  b64enc (headerRawId sha256 h)

/-- Insertion into a Python dict viewed as an association list: the first
insertion of a key fixes its position, later insertions overwrite the
value in place. -/
def dictInsert (l : List (List Nat × Nat)) (k : List Nat) (v : Nat) :
    List (List Nat × Nat) :=
  if l.any (fun p => p.1 == k) then
    l.map (fun p => if p.1 == k then (k, v) else p)
  else l ++ [(k, v)]

/-- `Bundle.header`: builds the dict `{item.header.id:
item.get_len_bytes()}` — collapsing items with equal ids — and hands it to
the `ANS104BundleHeader` constructor, which turns it into `(length, id)`
pairs. -/
def bundleHeader (sha256 : List Nat → List Nat) (items : List DataItem) :
    ANS104BundleHeader :=
  ⟨(items.foldl
      (fun d it => dictInsert d (headerId sha256 it.header) it.get_len_bytes)
      []).map (fun p => (p.2, p.1))⟩

/-- `Bundle.tobytes`: the header bytes followed by the concatenated item
bytes. -/
def bundleTobytes (sha256 : List Nat → List Nat) (items : List DataItem) :
    Option (List Nat) :=
  match items.mapM DataItem.tobytes with
  | some bss => some ((bundleHeader sha256 items).tobytes ++ bss.flatten)
  | none => none

/-- A Python value living in a `Block` attribute or produced by its
accessors: integers, base64url text strings, byte strings, the
`(numerator, denominator)` tuples, `fractions.Fraction` values, `None`,
lists, and the `{'name': ..., 'value': ...}` tag dicts of JSON blocks. -/
inductive BVal
  | int (n : Int)
  | str (s : List Nat)
  | bytes (b : List Nat)
  | pair (n d : Int)
  | frac (n d : Int)
  | pynone
  | list (xs : List BVal)
  | tagdict (name value : List Nat)

/-- The exceptions arising in the modelled `Block` code paths. -/
inductive PyErr
  | attrError
  | typeError
  | zeroDivision
  | recursionLimit
deriving DecidableEq

/-- The base attribute names reachable in the modelled `Block` code.  A
full Python attribute name is a base name followed by some number of
`_raw` suffixes (see `Block.lookup`). -/
inductive BAttr
  | indep_hash | prev_block | timestamp | nonce | height | diff
  | cumulative_diff | last_retarget | hash | block_size | weave_size
  | reward_addr | tx_root | wallet_list | hash_list_merkle | reward_pool
  | packing_threshold | strict_chunk_threshold
  | usd_to_ar_rate | scheduled_usd_to_ar_rate | sceduled_usd_to_ar_rate
  | poa_option | poa_chunk | poa_tx_path | poa_data_path | tags | txs | tx
deriving DecidableEq

/-- The state of a `Block` after `__init__`: the base64url string fields
(`b64enc_if_not_str` applied by the constructor), the integer fields, the
two rate tuples, and the tag / tx lists (txs as base64url id strings or
values; `Transaction` objects are outside the modelled core). -/
structure Block where
  indep_hash : List Nat
  prev_block : List Nat
  timestamp : Int
  nonce : List Nat
  height : Int
  diff : Int
  cumulative_diff : Int
  last_retarget : Int
  hash : List Nat
  block_size : Int
  weave_size : Int
  reward_addr : List Nat
  tx_root : List Nat
  wallet_list : List Nat
  hash_list_merkle : List Nat
  reward_pool : Int
  packing_threshold : Int
  strict_chunk_threshold : Int
  usd_to_ar_rate_raw : Int × Int
  scheduled_usd_to_ar_rate_raw : Int × Int
  poa_option : Int
  poa_chunk : List Nat
  poa_tx_path : List Nat
  poa_data_path : List Nat
  tags : List BVal
  txs : List BVal

/-- The instance `__dict__` of a `Block` as set by `__init__`, keyed by
base name and `_raw`-suffix count.  Note that `__init__` sets the
correctly spelled `scheduled_usd_to_ar_rate_raw` and never the misspelled
`sceduled_usd_to_ar_rate_raw` the property reads. -/
def Block.instDict (b : Block) : BAttr → Nat → Option BVal
  | .indep_hash, 0 => some (.str b.indep_hash)
  | .prev_block, 0 => some (.str b.prev_block)
  | .timestamp, 0 => some (.int b.timestamp)
  | .nonce, 0 => some (.str b.nonce)
  | .height, 0 => some (.int b.height)
  | .diff, 0 => some (.int b.diff)
  | .cumulative_diff, 0 => some (.int b.cumulative_diff)
  | .last_retarget, 0 => some (.int b.last_retarget)
  | .hash, 0 => some (.str b.hash)
  | .block_size, 0 => some (.int b.block_size)
  | .weave_size, 0 => some (.int b.weave_size)
  | .reward_addr, 0 => some (.str b.reward_addr)
  | .tx_root, 0 => some (.str b.tx_root)
  | .wallet_list, 0 => some (.str b.wallet_list)
  | .hash_list_merkle, 0 => some (.str b.hash_list_merkle)
  | .reward_pool, 0 => some (.int b.reward_pool)
  | .packing_threshold, 0 => some (.int b.packing_threshold)
  | .strict_chunk_threshold, 0 => some (.int b.strict_chunk_threshold)
  | .usd_to_ar_rate, 1 => some (.pair b.usd_to_ar_rate_raw.1 b.usd_to_ar_rate_raw.2)
  | .scheduled_usd_to_ar_rate, 1 =>
      some (.pair b.scheduled_usd_to_ar_rate_raw.1 b.scheduled_usd_to_ar_rate_raw.2)
  | .poa_option, 0 => some (.int b.poa_option)
  | .poa_chunk, 0 => some (.str b.poa_chunk)
  | .poa_tx_path, 0 => some (.str b.poa_tx_path)
  | .poa_data_path, 0 => some (.str b.poa_data_path)
  | .tags, 0 => some (.list b.tags)
  | .txs, 0 => some (.list b.txs)
  | _, _ => none

/-- `fractions.Fraction(n, d)` for `d ≠ 0`: lowest terms, positive
denominator. -/
def mkFrac (n d : Int) : BVal :=
  let g : Int := Int.gcd n d
  if d < 0 then .frac (-(n / g)) (-(d / g)) else .frac (n / g) (d / g)

/-- Python attribute lookup on a `Block`, for the name made of `a`
followed by `k` copies of `_raw`.  Class properties (data descriptors) are
tried first, then the instance `__dict__`, then `Block.__getattr__`; a
property getter raising AttributeError also falls back to `__getattr__`,
which strips one `_raw` suffix and base64url-decodes, or raises
AttributeError itself on names without the suffix (`super()` has no
`__getattr__`).  The property getters wrap their body in
`try: ... except ZeroDivisionError: return None`.  The fuel models
Python's recursion limit and decreases on every nested lookup. -/
def Block.lookup (b : Block) : Nat → BAttr → Nat → Except PyErr BVal
  | 0, _, _ => .error .recursionLimit
  | fuel + 1, a, k =>
    let getattrFallback : Except PyErr BVal :=
      if k = 0 then .error .attrError
      else
        match Block.lookup b fuel a (k - 1) with
        | .ok (.str s) => .ok (.bytes (b64dec s))
        | .ok _ => .error .typeError
        | .error e => .error e
    if a = BAttr.usd_to_ar_rate ∧ k = 0 then
      match ((match Block.lookup b fuel .usd_to_ar_rate 1 with
              | .ok (.pair n d) =>
                if d = 0 then .error PyErr.zeroDivision else .ok (mkFrac n d)
              | .ok _ => .error PyErr.typeError
              | .error e => .error e) : Except PyErr BVal) with
      | Except.error PyErr.zeroDivision => .ok .pynone
      | Except.error PyErr.attrError => getattrFallback
      | r => r
    else if a = BAttr.scheduled_usd_to_ar_rate ∧ k = 0 then
      match ((match Block.lookup b fuel .sceduled_usd_to_ar_rate 1 with
              | .ok (.pair n d) =>
                if d = 0 then .error PyErr.zeroDivision else .ok (mkFrac n d)
              | .ok _ => .error PyErr.typeError
              | .error e => .error e) : Except PyErr BVal) with
      | Except.error PyErr.zeroDivision => .ok .pynone
      | Except.error PyErr.attrError => getattrFallback
      | r => r
    else
      match Block.instDict b a k with
      | some v => .ok v
      | none => getattrFallback

/-- A deep-hash input tree: a byte string or an ordered list of trees. -/
inductive DHT
  | blob (b : List Nat)
  | list (xs : List DHT)

mutual

/-- Modelled from the spec (§4.B): the domain-separated recursive
`deep_hash` over byte trees (`ar/utils/deep_hash.py` is not among the
provided sources), with the SHA-384 primitive passed in. -/
def deep_hash (sha384 : List Nat → List Nat) : DHT → List Nat
  | .blob b => sha384 (strBytes ("blob") ++ asciiNat b.length ++ b)
  | .list xs =>
      deepHashAcc sha384 (sha384 (strBytes ("list") ++ asciiNat xs.length)) xs

/-- The list fold of `deep_hash`. -/
def deepHashAcc (sha384 : List Nat → List Nat) (acc : List Nat) :
    List DHT → List Nat
  | [] => acc
  | c :: cs => deepHashAcc sha384 (sha384 (acc ++ deep_hash sha384 c)) cs

end

/-- Expect byte-string data from a lookup. -/
def bvalBytes : Except PyErr BVal → Except PyErr (List Nat)
  | .ok (.bytes bs) => .ok bs
  | .ok _ => .error .typeError
  | .error e => .error e

/-- `b64dec(tx.id if type(tx) is Transaction else tx)` on one element of
the tx list; txs are modelled as base64url id strings (`Transaction`
objects are outside the modelled core and would contribute their id
strings the same way). -/
def txIdBlob : BVal → Except PyErr DHT
  | .str s => .ok (.blob (b64dec s))
  | _ => .error .typeError

/-- Error-propagating map over a list, in order. -/
def listMapExcept (f : α → Except PyErr β) : List α → Except PyErr (List β)
  | [] => .ok []
  | x :: xs =>
    match f x with
    | .error e => .error e
    | .ok y =>
      match listMapExcept f xs with
      | .error e => .error e
      | .ok ys => .ok (y :: ys)

mutual

/-- A Python value placed in a deep-hash input list: byte strings and
lists of such are accepted; anything else (in particular a text string,
such as the un-`encode()`d `str(self.strict_chunk_threshold)`) makes
`deep_hash` fail with a TypeError. -/
def bvalDHT : BVal → Except PyErr DHT
  | .bytes bs => .ok (.blob bs)
  | .list xs =>
    match bvalDHTList xs with
    | .error e => .error e
    | .ok ys => .ok (.list ys)
  | _ => .error .typeError

/-- `bvalDHT` over a list. -/
def bvalDHTList : List BVal → Except PyErr (List DHT)
  | [] => .ok []
  | x :: xs =>
    match bvalDHT x with
    | .error e => .error e
    | .ok y =>
      match bvalDHTList xs with
      | .error e => .error e
      | .ok ys => .ok (y :: ys)

end

/-- `[tag['name'].encode(), tag['value'].encode()]` on one pre-2.4 tag
dict. -/
def tagPairDHT : BVal → Except PyErr DHT
  | .tagdict n v => .ok (.list [.blob n, .blob v])
  | _ => .error .typeError

/-- Python subscription `v[i]` for the values arising here: only lists are
subscriptable; a `Fraction` or `None` raises TypeError. -/
def pySubscr : BVal → Nat → Except PyErr BVal
  | .list xs, i =>
    match xs.get? i with
    | some v => .ok v
    | none => .error .typeError
  | _, _ => .error .typeError

/-- `str(value).encode()` for the values arising here. -/
def pyStrBytes : BVal → List Nat
  | .int n => asciiInt n
  | .str s => s
  | .bytes bs => bs
  | .frac n d => asciiInt n ++ [47] ++ asciiInt d
  | .pynone => strBytes ("None")
  | _ => []

/-- `Block._get_data_segment_base` with the two fork heights and the
SHA-384 primitive passed in (`FORK_2_4`/`FORK_2_5` live in the package
`__init__`, which is not among the provided sources), following the
source's evaluation order: the elements of each property list are
evaluated left to right, so the `[... for tx in self.tx]` comprehension
runs right after the three leading elements. -/
def Block.getDataSegmentBase (b : Block) (sha384 : List Nat → List Nat)
    (fork24 fork25 : Int) (fuel : Nat) : Except PyErr (List Nat) :=
  if fork24 ≤ b.height then
    match bvalBytes (Block.lookup b fuel .prev_block 1) with
    | .error e => .error e
    | .ok prevRaw =>
      match bvalBytes (Block.lookup b fuel .tx_root 1) with
      | .error e => .error e
      | .ok txRootRaw =>
        match Block.lookup b fuel .tx 0 with
        | .error e => .error e
        | .ok txv =>
          match (match txv with
                 | .list xs => listMapExcept txIdBlob xs
                 | _ => .error .typeError) with
          | .error e => .error e
          | .ok txids =>
            match bvalBytes (Block.lookup b fuel .reward_addr 1) with
            | .error e => .error e
            | .ok rewardRaw =>
              match bvalDHTList b.tags with
              | .error e => .error e
              | .ok tagsDHT =>
                let props : List DHT :=
                  [.blob (asciiInt b.height), .blob prevRaw, .blob txRootRaw,
                   .list txids, .blob (asciiInt b.block_size),
                   .blob (asciiInt b.weave_size), .blob rewardRaw,
                   .list tagsDHT]
                if fork25 ≤ b.height then
                  match Block.lookup b fuel .usd_to_ar_rate 0 with
                  | .error e => .error e
                  | .ok rate0 =>
                    match pySubscr rate0 0 with
                    | .error e => .error e
                    | .ok r0 =>
                      match Block.lookup b fuel .usd_to_ar_rate 0 with
                      | .error e => .error e
                      | .ok rate1 =>
                        match pySubscr rate1 1 with
                        | .error e => .error e
                        | .ok r1 =>
                          match Block.lookup b fuel .scheduled_usd_to_ar_rate 0 with
                          | .error e => .error e
                          | .ok sched0 =>
                            match pySubscr sched0 0 with
                            | .error e => .error e
                            | .ok sr0 =>
                              match Block.lookup b fuel .scheduled_usd_to_ar_rate 0 with
                              | .error e => .error e
                              | .ok sched1 =>
                                match pySubscr sched1 1 with
                                | .error e => .error e
                                | .ok sr1 =>
                                  match bvalDHT
                                      (.str (asciiInt b.strict_chunk_threshold)) with
                                  | .error e => .error e
                                  | .ok strictItem =>
                                    let props2 : List DHT :=
                                      [.blob (pyStrBytes r0), .blob (pyStrBytes r1),
                                       .blob (pyStrBytes sr0), .blob (pyStrBytes sr1),
                                       .blob (asciiInt b.packing_threshold),
                                       strictItem] ++ props
                                    .ok (deep_hash sha384 (.list props2))
                else .ok (deep_hash sha384 (.list props))
  else
    match bvalBytes (Block.lookup b fuel .prev_block 1) with
    | .error e => .error e
    | .ok prevRaw =>
      match bvalBytes (Block.lookup b fuel .tx_root 1) with
      | .error e => .error e
      | .ok txRootRaw =>
        match Block.lookup b fuel .tx 0 with
        | .error e => .error e
        | .ok txv =>
          match (match txv with
                 | .list xs => listMapExcept txIdBlob xs
                 | _ => .error .typeError) with
          | .error e => .error e
          | .ok txids =>
            match bvalBytes (Block.lookup b fuel .reward_addr 1) with
            | .error e => .error e
            | .ok rewardRaw =>
              match listMapExcept tagPairDHT b.tags with
              | .error e => .error e
              | .ok tagPairs =>
                match bvalDHT (.str b.poa_tx_path) with
                | .error e => .error e
                | .ok poaTx =>
                  match bvalDHT (.str b.poa_data_path) with
                  | .error e => .error e
                  | .ok poaData =>
                    match bvalDHT (.str b.poa_chunk) with
                    | .error e => .error e
                    | .ok poaChunk =>
                      .ok (deep_hash sha384 (.list
                        [.blob (asciiInt b.height), .blob prevRaw, .blob txRootRaw,
                         .list txids, .blob (asciiInt b.block_size),
                         .blob (asciiInt b.weave_size), .blob rewardRaw,
                         .list tagPairs,
                         .list [.blob (asciiInt b.poa_option), poaTx, poaData,
                           poaChunk]]))

theorem take_len_append (xs r : List Nat) : (xs ++ r).take xs.length = xs := by
  induction xs with
  | nil => rfl
  | cons a l ih => simp [ih]

theorem drop_len_append (xs r : List Nat) : (xs ++ r).drop xs.length = r := by
  induction xs with
  | nil => rfl
  | cons a l ih => simp [ih]

theorem readN_exact (n : Nat) (xs r : List Nat) (h : xs.length = n) :
    readN n (xs ++ r) = some (xs, r) := by
  subst h
  rw [readN, if_pos (by simp), take_len_append, drop_len_append]

theorem packStr_length (b : List Nat) (n : Nat) : (packStr b n).length = n := by
  simp [packStr]
  omega

theorem packStr_exact (b : List Nat) (n : Nat) (h : b.length = n) :
    packStr b n = b := by
  subst h
  simp [packStr]

theorem signers_by_type_spec (t : Nat) (s : Signer)
    (h : SIGNERS_BY_TYPE t = some s) : s.type = t ∧ t < 65536 := by
  unfold SIGNERS_BY_TYPE at h
  split_ifs at h <;>
    simp_all [Arweave, Ed25519, Ethereum, Solana] <;>
    exact congrArg Signer.type h.symm

/-- C5: the tag codec decodes its own encoding: `tagsfromstream` applied
to a stream beginning with `tagstobytes tags` returns exactly `tags` (same
name/value byte pairs, same order) and consumes exactly the encoded bytes,
leaving the rest of the stream untouched — including for the empty list
(`rest = []` gives the plain round trip with empty remainder). -/
theorem C5_tag_codec_roundtrip (tags : List Tag) (rest : List Nat) :
    tagsfromstream (tagstobytes tags ++ rest) = some (tags, rest) :=
  tagsfromstream_tagstobytes tags rest

/-- C6: the tag codec on the two-tag seed vector emits exactly
`\x04\x18Content-Type\x14text/plain\x10App-Name\x08test\x00`: zigzag
varint count 2, then each name and value length-prefixed with zigzag
varints, then the zero terminator. -/
theorem C6_two_tag_seed_vector :
    tagstobytes [⟨strBytes ("Content-Type"), strBytes ("text/plain")⟩,
        ⟨strBytes ("App-Name"), strBytes ("test")⟩]
      = [4] ++ [24] ++ strBytes ("Content-Type") ++ [20] ++ strBytes ("text/plain")
        ++ [16] ++ strBytes ("App-Name") ++ [8] ++ strBytes ("test") ++ [0] := by
  decide

/-- C9: reading the `scheduled_usd_to_ar_rate` property of any `Block`
raises AttributeError and never returns a value: the getter reads the
misspelled `sceduled_usd_to_ar_rate_raw`, which no constructor sets and
which `__getattr__` cannot resolve, and the getter catches only
ZeroDivisionError.  (The fuel only needs to cover the three-deep attribute
lookup.) -/
theorem C9_scheduled_rate_raises (b : Block) (fuel : Nat) (hfuel : 3 ≤ fuel) :
    Block.lookup b fuel .scheduled_usd_to_ar_rate 0 = .error .attrError := by
  obtain ⟨f, rfl⟩ : ∃ f, fuel = f + 3 := ⟨fuel - 3, by omega⟩
  rfl

/-- A concrete block used to witness the block-level theorems. -/
def b0 : Block :=
  ⟨[], [], 0, [], 1000000, 0, 0, 0, [], 0, 0, [], [], [], [], 0, 0, 0,
    (1, 2), (3, 4), 0, [], [], [], [], []⟩

theorem C9_scheduled_rate_raises_witness :
    Block.lookup b0 3 .scheduled_usd_to_ar_rate 0 = .error .attrError :=
  C9_scheduled_rate_raises b0 3 (by omega)

/-- C2 (evaluating the code on the claimed inputs): for every `Block`
with `height ≥ FORK_2_5` (whatever the fork heights, as long as
`FORK_2_4 ≤ FORK_2_5`), `_get_data_segment_base` raises AttributeError
while building the property list — it iterates `self.tx`, but the
attribute set by `__init__` is `txs` — so the claimed deep-hash of the
rate/threshold-prepended property list is never computed. -/
theorem C2_data_segment_base_raises (b : Block) (sha384 : List Nat → List Nat)
    (fork24 fork25 : Int) (fuel : Nat)
    (h45 : fork24 ≤ fork25) (h25 : fork25 ≤ b.height) (hfuel : 2 ≤ fuel) :
    Block.getDataSegmentBase b sha384 fork24 fork25 fuel = .error .attrError := by
  obtain ⟨f, rfl⟩ : ∃ f, fuel = f + 2 := ⟨fuel - 2, by omega⟩
  rw [Block.getDataSegmentBase, if_pos (le_trans h45 h25)]
  rfl

def sha0 : List Nat → List Nat := fun _ => List.replicate 32 0

theorem C2_data_segment_base_raises_witness :
    Block.getDataSegmentBase b0 sha0 633720 812970 2 = .error .attrError :=
  C2_data_segment_base_raises b0 sha0 633720 812970 2 (by decide) (by decide)
    (by omega)

/-- C10: constructing an `ANS104DataItemHeader` with the anchor argument
`None` (the default) substitutes the 32 freshly drawn random bytes, so the
header has a non-`None` anchor whose `raw_anchor` is exactly those 32
bytes; and a header with no anchor results exactly from passing a falsy
non-`None` anchor (the empty byte string or empty text string). -/
theorem C10_anchor_default (tags : TagsArg) (owner : List Nat) (target : PyVal)
    (randomBytes signature : List Nat) (signer : Signer)
    (hlen : randomBytes.length = 32) (hbytes : ∀ x ∈ randomBytes, x < 256) :
    ((headerInit tags owner target PyVal.none randomBytes signature signer).anchor
        = some (b64enc randomBytes)
      ∧ (headerInit tags owner target PyVal.none randomBytes signature signer).raw_anchor
        = randomBytes
      ∧ (headerInit tags owner target PyVal.none randomBytes signature signer).raw_anchor.length
        = 32)
    ∧ ∀ anchor : PyVal,
        (headerInit tags owner target anchor randomBytes signature signer).anchor
            = Option.none
          ↔ (anchor = PyVal.bytes [] ∨ anchor = PyVal.str []) := by
  have hne : randomBytes ≠ [] := by
    intro h
    rw [h] at hlen
    simp at hlen
  have htr : (PyVal.bytes randomBytes).truthy = true := by
    simp [PyVal.truthy]
    exact hne
  have hanch :
      (headerInit tags owner target PyVal.none randomBytes signature signer).anchor
        = some (b64enc randomBytes) := by
    simp [headerInit, htr, b64enc_if_not_str]
  refine ⟨⟨hanch, ?_, ?_⟩, ?_⟩
  · simp [ANS104DataItemHeader.raw_anchor, hanch, b64dec_b64enc randomBytes hbytes]
  · simp [ANS104DataItemHeader.raw_anchor, hanch, b64dec_b64enc randomBytes hbytes,
      hlen]
  · intro anchor
    cases anchor with
    | none =>
      rw [hanch]
      simp
    | bytes b => cases b <;> simp [headerInit, PyVal.truthy, b64enc_if_not_str]
    | str s => cases s <;> simp [headerInit, PyVal.truthy, b64enc_if_not_str]

theorem C10_anchor_default_witness :
    ((headerInit (TagsArg.raw [0]) [] PyVal.none PyVal.none (List.replicate 32 7)
        [] DEFAULT_SIGNER).anchor = some (b64enc (List.replicate 32 7))
      ∧ (headerInit (TagsArg.raw [0]) [] PyVal.none PyVal.none (List.replicate 32 7)
        [] DEFAULT_SIGNER).raw_anchor = List.replicate 32 7
      ∧ (headerInit (TagsArg.raw [0]) [] PyVal.none PyVal.none (List.replicate 32 7)
        [] DEFAULT_SIGNER).raw_anchor.length = 32)
    ∧ ∀ anchor : PyVal,
        (headerInit (TagsArg.raw [0]) [] PyVal.none anchor (List.replicate 32 7)
            [] DEFAULT_SIGNER).anchor = Option.none
          ↔ (anchor = PyVal.bytes [] ∨ anchor = PyVal.str []) :=
  C10_anchor_default (TagsArg.raw [0]) [] PyVal.none (List.replicate 32 7) []
    DEFAULT_SIGNER (by decide) (by decide)

/-- The failing input for the `verify` tag-limit claim: the first tag has
a 1025-byte name, the second (last) tag is within limits. -/
def c1Tags : List Tag := [⟨List.replicate 1025 65, [66]⟩, ⟨[67], [68]⟩]

/-- A data item carrying `c1Tags`, no target, no anchor (`anchor=b''`)
and an empty payload, built through the header constructor. -/
def c1Item : DataItem :=
  ⟨headerInit (TagsArg.list c1Tags) [1] PyVal.none (PyVal.bytes []) [] [2] Ed25519,
    [], 2⟩

set_option maxRecDepth 40000 in
/-- C1 (evaluating the code at the failing input): `c1Item` decodes to a
first tag with a 1025-byte name — beyond the 1024-byte limit — yet
`verify` does not return `False`: the name/value size checks sit outside
the per-tag loop and only see the last tag, so with the signature check
succeeding, `verify` returns `True`. -/
theorem C1_verify_skips_nonlast_tag :
    (tagsfromstream c1Item.header.raw_tags).map
        (fun p => p.1.map fun t => t.name.length) = some [1025, 1]
    ∧ DataItem.verify c1Item true = Except.ok true := by
  have hraw : c1Item.header.raw_tags = tagstobytes c1Tags ++ extraTagsDataOf [0] :=
    rfl
  have hextra : extraTagsDataOf [0] = [] := rfl
  have hdec : tagsfromstream c1Item.header.raw_tags = some (c1Tags, []) := by
    rw [hraw, hextra]
    exact tagsfromstream_tagstobytes c1Tags []
  constructor
  · rw [hdec]
    rfl
  · unfold DataItem.verify
    rw [hdec]
    rfl

/-- The data item used for the bundle-length and round-trip claims: an
Ed25519 header with empty tag list (`raw_tags = b'\x00'`), no target, no
anchor, all-zero owner and signature bytes of the registered widths, empty
payload. -/
def c3Item : DataItem :=
  ⟨⟨[0], List.replicate 32 0, List.replicate 64 0, Option.none, Option.none,
    Ed25519⟩, [], 2⟩

set_option maxRecDepth 40000 in
/-- C3 (evaluating the code at the failing input): a bundle of two items
with equal ids (`sha0` models SHA-256; the two items are identical, so
their ids agree whatever the hash).  `Bundle.header` builds the dict
`{id: length}`, which collapses the two items into ONE `(length, id)`
pair, so `tobytes` has length `32 + 64·1 + Σ item lengths` instead of the
claimed `32 + 64·2 + Σ item lengths`. -/
theorem C3_bundle_header_collapses_duplicate_ids :
    (bundleTobytes sha0 [c3Item, c3Item]).map List.length
        = some (32 + 64 * 1 + (c3Item.get_len_bytes + c3Item.get_len_bytes))
    ∧ (bundleHeader sha0 [c3Item, c3Item]).length_id_pairs.length = 1
    ∧ 32 + 64 * 1 + (c3Item.get_len_bytes + c3Item.get_len_bytes)
        ≠ 32 + 64 * 2 + (c3Item.get_len_bytes + c3Item.get_len_bytes) := by
  refine ⟨by rfl, by rfl, by decide⟩

/-- C7: whenever `raw_tags` decodes, `tobytes()` succeeds and its byte
length equals `get_len_bytes()`, which equals
`2 + sig_len + own_len + (1 or 33) + (1 or 33) + 16 + |raw_tags|`.
(The `type < 2^16` hypothesis marks the domain of the `<H` pack field;
all registered signer types are 1 to 4.) -/
theorem C7_header_len_bytes (h : ANS104DataItemHeader) (tags : List Tag)
    (residual : List Nat) (htype : h.signer.type < 65536)
    (hdec : tagsfromstream h.raw_tags = some (tags, residual)) :
    ∃ bs, h.tobytes = some bs ∧ bs.length = h.get_len_bytes ∧
      h.get_len_bytes = 2 + h.signer.signature_length + h.signer.owner_length
        + (if h.target.isSome then 33 else 1) + (if h.anchor.isSome then 33 else 1)
        + 16 + h.raw_tags.length := by
  unfold ANS104DataItemHeader.tobytes
  rw [hdec]
  refine ⟨_, rfl, ?_, ?_⟩
  · cases ht : h.target <;> cases ha : h.anchor <;>
      simp [List.length_append, natToBytesLE_length, packStr_length,
        ANS104DataItemHeader.get_len_bytes, ht, ha] <;> omega
  · cases ht : h.target <;> cases ha : h.anchor <;>
      simp [ANS104DataItemHeader.get_len_bytes, ht, ha] <;> omega

/-- The header used to witness the length claim. -/
def c7Header : ANS104DataItemHeader :=
  ⟨[0], List.replicate 32 0, List.replicate 64 0, Option.none, Option.none, Ed25519⟩

theorem C7_header_len_bytes_witness :
    ∃ bs, c7Header.tobytes = some bs ∧ bs.length = c7Header.get_len_bytes ∧
      c7Header.get_len_bytes = 2 + c7Header.signer.signature_length
        + c7Header.signer.owner_length
        + (if c7Header.target.isSome then 33 else 1)
        + (if c7Header.anchor.isSome then 33 else 1)
        + 16 + c7Header.raw_tags.length :=
  C7_header_len_bytes c7Header [] [] (by decide) (by rfl)

/-- C8: a header stream whose target flag byte — or, with a well-formed
target segment, whose anchor flag byte — is neither `0x00` nor `0x01`
makes `fromstream` fail with the unknown-flag error and no partial result;
the witness below instantiates the flag with `0x02`. -/
theorem C8_bad_flag_rejected :
    (∀ (t : Nat) (signer : Signer) (sig own rest : List Nat) (flag : Nat),
        SIGNERS_BY_TYPE t = some signer →
        sig.length = signer.signature_length →
        own.length = signer.owner_length →
        flag ≠ 0 → flag ≠ 1 →
        ANS104DataItemHeader.fromstream
            (natToBytesLE 2 t ++ (sig ++ (own ++ flag :: rest)))
          = .error .unknownTargetFlag)
    ∧ (∀ (t : Nat) (signer : Signer) (sig own tpart rest : List Nat) (flag : Nat),
        SIGNERS_BY_TYPE t = some signer →
        sig.length = signer.signature_length →
        own.length = signer.owner_length →
        (tpart = [0] ∨ ∃ t32, t32.length = 32 ∧ tpart = 1 :: t32) →
        flag ≠ 0 → flag ≠ 1 →
        ANS104DataItemHeader.fromstream
            (natToBytesLE 2 t ++ (sig ++ (own ++ (tpart ++ flag :: rest))))
          = .error .unknownAnchorFlag) := by
  have hpow : (65536 : Nat) = 256 ^ 2 := by norm_num
  constructor
  · intro t signer sig own rest flag hreg hsig hown hf0 hf1
    obtain ⟨htype, hlt⟩ := signers_by_type_spec t signer hreg
    have e1 : readN 2 (natToBytesLE 2 t ++ (sig ++ (own ++ flag :: rest)))
        = some (natToBytesLE 2 t, sig ++ (own ++ flag :: rest)) :=
      readN_exact _ _ _ (natToBytesLE_length 2 t)
    have e2 : bytesToNatLE (natToBytesLE 2 t) = t :=
      bytesToNatLE_natToBytesLE 2 t (by omega)
    have e3 : readN (signer.signature_length + signer.owner_length)
        (sig ++ (own ++ flag :: rest)) = some (sig ++ own, flag :: rest) := by
      rw [← List.append_assoc]
      exact readN_exact _ _ _ (by simp [hsig, hown])
    unfold ANS104DataItemHeader.fromstream
    simp only [e1, e2, hreg, e3]
    rw [if_pos ⟨hf0, hf1⟩]
  · intro t signer sig own tpart rest flag hreg hsig hown htp hf0 hf1
    obtain ⟨htype, hlt⟩ := signers_by_type_spec t signer hreg
    have e1 : readN 2 (natToBytesLE 2 t ++ (sig ++ (own ++ (tpart ++ flag :: rest))))
        = some (natToBytesLE 2 t, sig ++ (own ++ (tpart ++ flag :: rest))) :=
      readN_exact _ _ _ (natToBytesLE_length 2 t)
    have e2 : bytesToNatLE (natToBytesLE 2 t) = t :=
      bytesToNatLE_natToBytesLE 2 t (by omega)
    have e3 : readN (signer.signature_length + signer.owner_length)
        (sig ++ (own ++ (tpart ++ flag :: rest)))
        = some (sig ++ own, tpart ++ flag :: rest) := by
      rw [← List.append_assoc]
      exact readN_exact _ _ _ (by simp [hsig, hown])
    unfold ANS104DataItemHeader.fromstream
    simp only [e1, e2, hreg, e3]
    rcases htp with h0 | ⟨t32, ht32, h1⟩
    · subst h0
      simp only [List.cons_append, List.nil_append]
      rw [if_neg (by simp)]
      rw [if_neg (by simp : ¬(0 : Nat) ≠ 0)]
      simp only []
      rw [if_pos ⟨hf0, hf1⟩]
    · subst h1
      simp only [List.cons_append]
      rw [if_neg (by simp)]
      rw [if_pos (by simp : (1 : Nat) ≠ 0)]
      rw [readN_exact 32 t32 (flag :: rest) ht32]
      simp only []
      rw [if_pos ⟨hf0, hf1⟩]

theorem C8_bad_flag_rejected_witness :
    ANS104DataItemHeader.fromstream
        (natToBytesLE 2 2 ++ (List.replicate 64 0 ++ (List.replicate 32 0
          ++ 2 :: [])))
      = .error .unknownTargetFlag
    ∧ ANS104DataItemHeader.fromstream
        (natToBytesLE 2 2 ++ (List.replicate 64 0 ++ (List.replicate 32 0
          ++ ([0] ++ 2 :: []))))
      = .error .unknownAnchorFlag :=
  ⟨C8_bad_flag_rejected.1 2 Ed25519 (List.replicate 64 0) (List.replicate 32 0)
      [] 2 rfl (by decide) (by decide) (by decide) (by decide),
    C8_bad_flag_rejected.2 2 Ed25519 (List.replicate 64 0) (List.replicate 32 0)
      [0] [] 2 rfl (by decide) (by decide) (Or.inl rfl) (by decide) (by decide)⟩

theorem take_app_of_len (n : Nat) (xs r : List Nat) (h : xs.length = n) :
    (xs ++ r).take n = xs := by
  subst h
  exact take_len_append xs r

theorem drop_app_of_len (n : Nat) (xs r : List Nat) (h : xs.length = n) :
    (xs ++ r).drop n = r := by
  subst h
  exact drop_len_append xs r

/-- The serialized optional-field segment: flag byte 1 plus the 32 raw
bytes when present, flag byte 0 otherwise. -/
def optFlagSeg (o : Option (List Nat)) : List Nat :=
  match o with
  | some t => 1 :: t
  | none => [0]

set_option maxHeartbeats 4000000 in
theorem fromstream_layout (signer : Signer) (sig own raw_tags data : List Nat)
    (target32 anchor32 : Option (List Nat)) (tags : List Tag) (residual : List Nat)
    (hreg : SIGNERS_BY_TYPE signer.type = some signer)
    (hsig : sig.length = signer.signature_length)
    (hown : own.length = signer.owner_length)
    (ht32 : ∀ t ∈ target32, t.length = 32)
    (ha32 : ∀ a ∈ anchor32, a.length = 32)
    (hdec : tagsfromstream raw_tags = some (tags, residual))
    (htlen : tags.length < 2 ^ 64)
    (hrlen : raw_tags.length < 2 ^ 64) :
    ANS104DataItemHeader.fromstream
        (natToBytesLE 2 signer.type ++ (sig ++ (own
          ++ (optFlagSeg target32
            ++ (optFlagSeg anchor32
              ++ (natToBytesLE 8 tags.length ++ (natToBytesLE 8 raw_tags.length
                ++ (raw_tags ++ data))))))))
      = Except.ok
          (⟨raw_tags, own, sig, Option.map b64enc target32,
            Option.map b64enc anchor32, signer⟩, data) := by
  obtain ⟨-, hlt⟩ := signers_by_type_spec signer.type signer hreg
  have hp2 : (256 : Nat) ^ 2 = 65536 := by norm_num
  have hp8 : (256 : Nat) ^ 8 = 2 ^ 64 := by norm_num
  have e2 : bytesToNatLE (natToBytesLE 2 signer.type) = signer.type :=
    bytesToNatLE_natToBytesLE 2 _ (by rw [hp2]; exact hlt)
  have ec : bytesToNatLE (natToBytesLE 8 tags.length) = tags.length :=
    bytesToNatLE_natToBytesLE 8 _ (by rw [hp8]; exact htlen)
  have el : bytesToNatLE (natToBytesLE 8 raw_tags.length) = raw_tags.length :=
    bytesToNatLE_natToBytesLE 8 _ (by rw [hp8]; exact hrlen)
  have hraw_ne : raw_tags ≠ [] := by
    intro h
    rw [h, tagsfromstream_nil] at hdec
    exact Option.noConfusion hdec
  have hraw_pos : 0 < raw_tags.length := List.length_pos.mpr hraw_ne
  have etk : (sig ++ own).take signer.signature_length = sig := by
    rw [← hsig]
    exact take_len_append sig own
  have edr : (sig ++ own).drop signer.signature_length = own := by
    rw [← hsig]
    exact drop_len_append sig own
  have etk8 : (natToBytesLE 8 tags.length ++ natToBytesLE 8 raw_tags.length).take 8
      = natToBytesLE 8 tags.length :=
    take_app_of_len 8 _ _ (natToBytesLE_length 8 _)
  have edr8 : (natToBytesLE 8 tags.length ++ natToBytesLE 8 raw_tags.length).drop 8
      = natToBytesLE 8 raw_tags.length :=
    drop_app_of_len 8 _ _ (natToBytesLE_length 8 _)
  have e16 : readN 16 (natToBytesLE 8 tags.length
        ++ (natToBytesLE 8 raw_tags.length ++ (raw_tags ++ data)))
      = some (natToBytesLE 8 tags.length ++ natToBytesLE 8 raw_tags.length,
          raw_tags ++ data) := by
    rw [← List.append_assoc]
    exact readN_exact _ _ _ (by simp [natToBytesLE_length])
  have echk : ¬(residual = [] ∧ tags.length ≠ tags.length) := fun h => h.2 rfl
  have htr0 : PyVal.none.truthy = false := rfl
  have htrE : (PyVal.bytes []).truthy = false := rfl
  cases target32 with
  | none =>
    cases anchor32 with
    | none =>
      have hresult : headerInit (TagsArg.raw raw_tags) own PyVal.none
          (PyVal.bytes []) [] sig signer
          = ⟨raw_tags, own, sig, Option.none, Option.none, signer⟩ := by
        simp [headerInit, htr0, htrE, b64enc_if_not_str]
      simp only [optFlagSeg]
      unfold ANS104DataItemHeader.fromstream
      rw [readN_exact 2 _ _ (natToBytesLE_length 2 _)]
      simp only [e2, hreg]
      rw [← List.append_assoc sig own]
      rw [readN_exact (signer.signature_length + signer.owner_length) (sig ++ own) _
        (by simp [hsig, hown])]
      simp only [etk, edr, List.cons_append, List.nil_append]
      rw [if_neg (by simp)]
      rw [if_neg (by simp : ¬(0 : Nat) ≠ 0)]
      simp only []
      rw [if_neg (by simp)]
      rw [if_neg (by simp : ¬(0 : Nat) ≠ 0)]
      simp only []
      rw [e16]
      simp only [etk8, edr8, ec, el]
      rw [if_pos hraw_pos]
      rw [readN_exact raw_tags.length raw_tags data rfl]
      simp only [hdec]
      rw [if_neg echk]
      simp only [hresult]
      rw [if_neg (by simp [ANS104DataItemHeader.get_len_bytes] <;> omega)]
      rw [if_neg (by simp [ANS104DataItemHeader.get_len_bytes] <;> omega)]
      rfl
    | some a32 =>
      have hla : a32.length = 32 := ha32 a32 rfl
      have hane : a32 ≠ [] := by
        intro h
        rw [h] at hla
        simp at hla
      have htr2 : (PyVal.bytes a32).truthy = true := by
        simp [PyVal.truthy]
        exact hane
      have hresult : headerInit (TagsArg.raw raw_tags) own PyVal.none
          (PyVal.bytes a32) [] sig signer
          = ⟨raw_tags, own, sig, Option.none, some (b64enc a32), signer⟩ := by
        simp [headerInit, htr0, htr2, b64enc_if_not_str]
      simp only [optFlagSeg]
      unfold ANS104DataItemHeader.fromstream
      rw [readN_exact 2 _ _ (natToBytesLE_length 2 _)]
      simp only [e2, hreg]
      rw [← List.append_assoc sig own]
      rw [readN_exact (signer.signature_length + signer.owner_length) (sig ++ own) _
        (by simp [hsig, hown])]
      simp only [etk, edr, List.cons_append, List.nil_append]
      rw [if_neg (by simp)]
      rw [if_neg (by simp : ¬(0 : Nat) ≠ 0)]
      simp only []
      rw [if_neg (by simp)]
      rw [if_pos (by norm_num : (1 : Nat) ≠ 0)]
      rw [readN_exact 32 a32 _ hla]
      simp only []
      rw [e16]
      simp only [etk8, edr8, ec, el]
      rw [if_pos hraw_pos]
      rw [readN_exact raw_tags.length raw_tags data rfl]
      simp only [hdec]
      rw [if_neg echk]
      simp only [hresult]
      rw [if_neg (by simp [ANS104DataItemHeader.get_len_bytes] <;> omega)]
      rw [if_neg (by simp [ANS104DataItemHeader.get_len_bytes] <;> omega)]
      rfl
  | some t32 =>
    have hl32 : t32.length = 32 := ht32 t32 rfl
    have htne : t32 ≠ [] := by
      intro h
      rw [h] at hl32
      simp at hl32
    have htr1 : (PyVal.bytes t32).truthy = true := by
      simp [PyVal.truthy]
      exact htne
    cases anchor32 with
    | none =>
      have hresult : headerInit (TagsArg.raw raw_tags) own (PyVal.bytes t32)
          (PyVal.bytes []) [] sig signer
          = ⟨raw_tags, own, sig, some (b64enc t32), Option.none, signer⟩ := by
        simp [headerInit, htr1, htrE, b64enc_if_not_str]
      simp only [optFlagSeg]
      unfold ANS104DataItemHeader.fromstream
      rw [readN_exact 2 _ _ (natToBytesLE_length 2 _)]
      simp only [e2, hreg]
      rw [← List.append_assoc sig own]
      rw [readN_exact (signer.signature_length + signer.owner_length) (sig ++ own) _
        (by simp [hsig, hown])]
      simp only [etk, edr, List.cons_append, List.nil_append]
      rw [if_neg (by simp)]
      rw [if_pos (by norm_num : (1 : Nat) ≠ 0)]
      rw [readN_exact 32 t32 _ hl32]
      simp only []
      rw [if_neg (by simp)]
      rw [if_neg (by simp : ¬(0 : Nat) ≠ 0)]
      simp only []
      rw [e16]
      simp only [etk8, edr8, ec, el]
      rw [if_pos hraw_pos]
      rw [readN_exact raw_tags.length raw_tags data rfl]
      simp only [hdec]
      rw [if_neg echk]
      simp only [hresult]
      rw [if_neg (by simp [ANS104DataItemHeader.get_len_bytes] <;> omega)]
      rw [if_neg (by simp [ANS104DataItemHeader.get_len_bytes] <;> omega)]
      rfl
    | some a32 =>
      have hla : a32.length = 32 := ha32 a32 rfl
      have hane : a32 ≠ [] := by
        intro h
        rw [h] at hla
        simp at hla
      have htr2 : (PyVal.bytes a32).truthy = true := by
        simp [PyVal.truthy]
        exact hane
      have hresult : headerInit (TagsArg.raw raw_tags) own (PyVal.bytes t32)
          (PyVal.bytes a32) [] sig signer
          = ⟨raw_tags, own, sig, some (b64enc t32), some (b64enc a32), signer⟩ := by
        simp [headerInit, htr1, htr2, b64enc_if_not_str]
      simp only [optFlagSeg]
      unfold ANS104DataItemHeader.fromstream
      rw [readN_exact 2 _ _ (natToBytesLE_length 2 _)]
      simp only [e2, hreg]
      rw [← List.append_assoc sig own]
      rw [readN_exact (signer.signature_length + signer.owner_length) (sig ++ own) _
        (by simp [hsig, hown])]
      simp only [etk, edr, List.cons_append, List.nil_append]
      rw [if_neg (by simp)]
      rw [if_pos (by norm_num : (1 : Nat) ≠ 0)]
      rw [readN_exact 32 t32 _ hl32]
      simp only []
      rw [if_neg (by simp)]
      rw [if_pos (by norm_num : (1 : Nat) ≠ 0)]
      rw [readN_exact 32 a32 _ hla]
      simp only []
      rw [e16]
      simp only [etk8, edr8, ec, el]
      rw [if_pos hraw_pos]
      rw [readN_exact raw_tags.length raw_tags data rfl]
      simp only [hdec]
      rw [if_neg echk]
      simp only [hresult]
      rw [if_neg (by simp [ANS104DataItemHeader.get_len_bytes] <;> omega)]
      rw [if_neg (by simp [ANS104DataItemHeader.get_len_bytes] <;> omega)]
      rfl

/-- The claim's validity conditions on a header: a registered signer, raw
signature and owner bytes of the registered widths, base64url-encoded
32-byte target and anchor when present, and tag bytes that decode (with
the two u64 count fields in range). -/
def WellFormedHeader (h : ANS104DataItemHeader) : Prop :=
  SIGNERS_BY_TYPE h.signer.type = some h.signer
  ∧ h.raw_signature.length = h.signer.signature_length
  ∧ h.raw_owner.length = h.signer.owner_length
  ∧ (∀ t ∈ h.target, ∃ t32, t32.length = 32 ∧ (∀ x ∈ t32, x < 256) ∧ t = b64enc t32)
  ∧ (∀ a ∈ h.anchor, ∃ a32, a32.length = 32 ∧ (∀ x ∈ a32, x < 256) ∧ a = b64enc a32)
  ∧ (∃ tags residual, tagsfromstream h.raw_tags = some (tags, residual)
      ∧ tags.length < 2 ^ 64)
  ∧ h.raw_tags.length < 2 ^ 64

/-- C4: for a data item with valid fields, `frombytes (tobytes d)`
reconstructs the data item exactly: same header (signature type, signer,
signature, owner, target, anchor, raw tag bytes) and same payload data. -/
theorem C4_dataitem_roundtrip (d : DataItem) (hwf : WellFormedHeader d.header) :
    ∃ bs, d.tobytes = some bs
      ∧ DataItem.frombytes bs = Except.ok ⟨d.header, d.data, 2⟩ := by
  obtain ⟨hreg, hsig, hown, htgt, hanc, ⟨tags, residual, hdec, htlen⟩, hrlen⟩ := hwf
  have htgt' : ∃ t32opt : Option (List Nat),
      (∀ t ∈ t32opt, t.length = 32)
      ∧ d.header.target = Option.map b64enc t32opt
      ∧ (match d.header.target with
          | some t => 1 :: packStr (b64dec t) 32
          | Option.none => [0])
        = optFlagSeg t32opt := by
    cases ht : d.header.target with
    | none => exact ⟨Option.none, by simp, by simp, rfl⟩
    | some t =>
      obtain ⟨t32, h32, hbytes, ht32⟩ := htgt t (by rw [ht]; rfl)
      refine ⟨some t32, by simpa using h32, by simp [ht32], ?_⟩
      rw [ht32]
      show 1 :: packStr (b64dec (b64enc t32)) 32 = optFlagSeg (some t32)
      show 1 :: packStr (b64dec (b64enc t32)) 32 = 1 :: t32
      rw [b64dec_b64enc t32 hbytes, packStr_exact t32 32 h32]
  have hanc' : ∃ a32opt : Option (List Nat),
      (∀ a ∈ a32opt, a.length = 32)
      ∧ d.header.anchor = Option.map b64enc a32opt
      ∧ (match d.header.anchor with
          | some a => 1 :: packStr (b64dec a) 32
          | Option.none => [0])
        = optFlagSeg a32opt := by
    cases ha : d.header.anchor with
    | none => exact ⟨Option.none, by simp, by simp, rfl⟩
    | some a =>
      obtain ⟨a32, h32, hbytes, ha32⟩ := hanc a (by rw [ha]; rfl)
      refine ⟨some a32, by simpa using h32, by simp [ha32], ?_⟩
      rw [ha32]
      show 1 :: packStr (b64dec (b64enc a32)) 32 = optFlagSeg (some a32)
      show 1 :: packStr (b64dec (b64enc a32)) 32 = 1 :: a32
      rw [b64dec_b64enc a32 hbytes, packStr_exact a32 32 h32]
  obtain ⟨t32opt, ht32len, htmap, htpart⟩ := htgt'
  obtain ⟨a32opt, ha32len, hamap, hapart⟩ := hanc'
  have hbs : d.tobytes
      = some (natToBytesLE 2 d.header.signer.type ++ (d.header.raw_signature
          ++ (d.header.raw_owner
          ++ (optFlagSeg t32opt
            ++ (optFlagSeg a32opt
              ++ (natToBytesLE 8 tags.length
                ++ (natToBytesLE 8 d.header.raw_tags.length
                  ++ (d.header.raw_tags ++ d.data)))))))) := by
    unfold DataItem.tobytes ANS104DataItemHeader.tobytes
    rw [hdec]
    simp only []
    rw [packStr_exact _ _ hsig, packStr_exact _ _ hown, htpart, hapart]
    simp [List.append_assoc]
  refine ⟨_, hbs, ?_⟩
  have hmain := fromstream_layout d.header.signer d.header.raw_signature
    d.header.raw_owner d.header.raw_tags d.data t32opt a32opt tags residual
    hreg hsig hown ht32len ha32len hdec htlen hrlen
  unfold DataItem.frombytes DataItem.fromstream
  rw [hmain]
  rw [← htmap, ← hamap]

/-- The data item used to witness the round-trip claim. -/
def c4Item : DataItem :=
  ⟨⟨[0], List.replicate 32 4, List.replicate 64 3, Option.none, Option.none,
    Ed25519⟩, [9, 8, 7], 2⟩

theorem C4_dataitem_roundtrip_witness :
    ∃ bs, c4Item.tobytes = some bs
      ∧ DataItem.frombytes bs = Except.ok ⟨c4Item.header, c4Item.data, 2⟩ :=
  C4_dataitem_roundtrip c4Item
    ⟨rfl, by decide, by decide, by simp [c4Item], by simp [c4Item],
      ⟨[], [], rfl, by decide⟩, by decide⟩
